import Mathlib

/-!
Verification of the reconciliation and encoding core of the
external-dns-pfsense-webhook repository, shallowly embedded in Lean.

Go strings manipulated by the name splitter/joiner are modelled as
`List Char` (a Go string is a sequence of characters; the code only ever
splits on and counts the dot character, so byte/rune subtleties do not
arise).  All structures mirror the Go structs of
`pkg/business/svc/pfsense.go` field by field.
-/

namespace Pfsense

/-- `str s` is the character list of a string literal, used to write
concrete dns names compactly. -/
def str (s : String) : List Char := s.data

/-- Decidable equality for `Except`, so that concrete runs of the
embedded fallible functions can be checked by `decide`. -/
instance instDecEqExcept {ε α : Type} [DecidableEq ε] [DecidableEq α] :
    DecidableEq (Except ε α) := fun x y =>
  match x, y with
  | .ok a, .ok b =>
      if h : a = b then isTrue (congrArg Except.ok h)
      else isFalse (fun he => h (Except.ok.inj he))
  | .error a, .error b =>
      if h : a = b then isTrue (congrArg Except.error h)
      else isFalse (fun he => h (Except.error.inj he))
  | .ok _, .error _ => isFalse (fun he => Except.noConfusion he)
  | .error _, .ok _ => isFalse (fun he => Except.noConfusion he)

/-- Embeds `strings.Count(s, ".")` from `explodeHostName`/`buildDNSName`:
the number of occurrences of the dot character in `s` (a one-character
separator never overlaps, so this is a plain character count). -/
def countDots : List Char → Nat
  | [] => 0
  | c :: rest => (if c = '.' then 1 else 0) + countDots rest

/-- Splitting at the first dot: `breakAtDot s = some (a, b)` when
`s = a ++ '.' :: b` with `a` dot-free, and `none` when `s` has no dot.
Helper for embedding `strings.SplitN(s, ".", 2)`. -/
def breakAtDot : List Char → Option (List Char × List Char)
  | [] => none
  | c :: rest =>
      if c = '.' then some ([], rest)
      else
        match breakAtDot rest with
        | none => none
        | some (a, b) => some (c :: a, b)

/-- Embeds `strings.SplitN(s, ".", 2)`: two parts split at the first dot
when `s` contains a dot, otherwise the single part `s` (in Go,
`SplitN("", ".", 2)` is `[""]`, matched by the `none` branch). -/
def splitN2 (s : List Char) : List (List Char) :=
  match breakAtDot s with
  | none => [s]
  | some (a, b) => [a, b]

/-- Embeds `explodeHostName` (pkg/business/svc/pfsense.go): a name with
exactly one dot is a bare domain (`host = ""`); otherwise the name is
split at the first dot with `SplitN`, and the absence of two parts (no
dot at all) is the error case. -/
def explodeHostName (hostName : List Char) : Except String (List Char × List Char) :=
  if countDots hostName = 1 then
    .ok ([], hostName)
  else
    match splitN2 hostName with
    | [a, b] => .ok (a, b)
    | _ => .error "host name should be in form of [<sub> <domain>]"

/-- Embeds `buildDNSName` (pkg/business/svc/pfsense.go): fails when
`host` contains a dot; otherwise joins `host` and `domain` with a dot,
or returns `domain` alone when `host` is empty. -/
def buildDNSName (host domain : List Char) : Except String (List Char) :=
  if countDots host ≠ 0 then
    .error "host can have only one part"
  else if host ≠ [] then
    .ok (host ++ '.' :: domain)
  else
    .ok domain

/-- Embeds the `UnboundEndpoint` struct.  `Labels` models the Go
`map[string]string` as an association list (`[]` is the `nil` map); map
equality is list equality for the concrete values used here. -/
structure UnboundEndpoint where
  DNSName : List Char
  Targets : List String
  Labels : List (String × String)
  RecordType : String
deriving DecidableEq

/-- The value of the `Descr` field of a remote host entry, classified by
exactly the tests `hostToEndpoint` performs on it: emptiness, whether it
starts with an opening curly brace, and whether `json.Unmarshal` into
`UnboundEndpoint` succeeds.  Every Go string falls into exactly one
class and the code's behaviour depends only on the class (plus, in the
last class, the decoded value):
* `empty` — the empty string;
* `plain s` — non-empty, not starting with an opening curly brace
  (`strings.HasPrefix(descr, openingBrace)` is false), so never parsed;
* `invalidJson s` — starts with an opening curly brace but
  `json.Unmarshal` fails on it;
* `endpointJson e` — the output of `json.Marshal` on endpoint `e`
  (always non-empty and starting with an opening curly brace), from
  which `json.Unmarshal` recovers `e` (the struct's JSON round-trip is
  the identity: absent `omitempty` fields decode to zero values, which
  `[]` already denotes in this model). -/
inductive DescrVal where
  | empty
  | plain (s : String)
  | invalidJson (s : String)
  | endpointJson (e : UnboundEndpoint)
deriving DecidableEq

/-- Embeds the `host` struct (remote host override entry). -/
structure host where
  Host : List Char
  Domain : List Char
  Ip : String
  Descr : DescrVal
  Aliases : String
deriving DecidableEq

/-- Embeds the `aclRow` struct. -/
structure aclRow where
  AclNetwork : String
  Mask : String
  Description : String
deriving DecidableEq

/-- Embeds the `acl` struct. -/
structure acl where
  Aclid : String
  Aclname : String
  Aclaction : String
  Description : String
  Row : List aclRow
deriving DecidableEq

/-- Embeds the `unbound` struct: the full remote configuration section,
with every sibling field of `Hosts` carried along. -/
structure unbound where
  Enable : String
  Dnssec : String
  ActiveInterface : String
  OutgoingInterface : String
  CustomOptions : String
  Hideidentity : String
  Hideversion : String
  Dnssecstripped : String
  Hosts : List host
  Acls : List acl
  Port : String
  Tlsport : String
  Sslcertref : String
  SystemDomainLocalZoneType : String
  Msgcachesize : String
  OutgoingNumTcp : String
  IncomingNumTcp : String
  EdnsBufferSize : String
  NumQueriesPerThread : String
  JostleTimeout : String
  CacheMaxTtl : String
  CacheMinTtl : String
  InfraKeepProbing : String
  InfraHostTtl : String
  InfraCacheNumhosts : String
  UnwantedReplyThreshold : String
  LogVerbosity : String
  Forwarding : String
deriving DecidableEq

/-- Embeds `endpointToHost` (pkg/business/svc/pfsense.go): record type
must be A or TXT; the dns name is exploded into host and domain; an A
record must have exactly one target; `ip` is the sole A target or the
placeholder `127.0.0.1`; the description stores `json.Marshal` of the
endpoint (modelled by `DescrVal.endpointJson`).  `Targets.headD` models
`Targets[0]`, reached only under the length-one guard. -/
def endpointToHost (endpoint : UnboundEndpoint) : Except String host :=
  if ¬ (endpoint.RecordType = "A" ∨ endpoint.RecordType = "TXT") then
    .error "only A and TXT record types are supported"
  else
    match explodeHostName endpoint.DNSName with
    | .error e => .error ("failed to explode dns name; " ++ e)
    | .ok (hostname, domain) =>
      if endpoint.RecordType = "A" ∧ endpoint.Targets.length ≠ 1 then
        .error "only one target is supported for A record"
      else
        let ip := if endpoint.RecordType = "A" then endpoint.Targets.headD "127.0.0.1"
                  else "127.0.0.1"
        .ok { Host := hostname, Domain := domain, Ip := ip,
              Descr := .endpointJson endpoint, Aliases := "" }

/-- Embeds `hostToEndpoint` (pkg/business/svc/pfsense.go): builds the
dns name (fails if the stored host part contains a dot), then defaults
`recordType = A`, `targets = [ip]`, no labels; when the description is
non-empty and starts with an opening curly brace it is unmarshalled —
failure there is an error, success overrides `recordType` (unless the
decoded one is empty), `targets` and `labels` from the payload. -/
def hostToEndpoint (h : host) : Except String UnboundEndpoint :=
  match buildDNSName h.Host h.Domain with
  | .error e => .error ("failed to build dns name from host; " ++ e)
  | .ok dnsName =>
    match h.Descr with
    | .invalidJson _ => .error "failed to unmarshal description to endpoint"
    | .endpointJson e =>
        .ok { DNSName := dnsName,
              Targets := e.Targets,
              Labels := e.Labels,
              RecordType := if e.RecordType ≠ "" then e.RecordType else "A" }
    | _ => .ok { DNSName := dnsName, Targets := [h.Ip], Labels := [],
                 RecordType := "A" }

/-- The two-value Go call `existingDNS, err := s.buildDNSName(h.Host,
h.Domain)` as a pair `(existingDNS, err != nil)`; on failure Go returns
the zero-value string `""` together with the error. -/
def goDNS (h : host) : List Char × Bool :=
  match buildDNSName h.Host h.Domain with
  | .ok s => (s, false)
  | .error _ => ([], true)

/-- The match predicate used (three times) inside `ApplyChanges`'s loop,
verbatim from the source:
`return err != nil && existingDNS == endpoint.DNSName`. -/
def changePredicate (existingHost : host) (endpoint : UnboundEndpoint) : Bool :=
  let r := goDNS existingHost
  r.2 && decide (r.1 = endpoint.DNSName)

/-- Embeds `toCreate = append(toCreate[:i], toCreate[i+1:]...)` guarded
by `IndexFunc`: removes the first element satisfying `p`, if any. -/
def eraseFirstMatch (p : UnboundEndpoint → Bool) : List UnboundEndpoint → List UnboundEndpoint
  | [] => []
  | x :: xs => if p x then xs else x :: eraseFirstMatch p xs

/-- Embeds the `for _, existingHost := range section.Hosts` loop of
`ApplyChanges`: threads the accumulated `finalHosts` and the mutable
`toCreate` slice through the iterations; an existing record matching a
`toDelete` entry is skipped; one matching a `toUpdate` entry is replaced
by `endpointToHost` of that entry (a conversion error aborts the whole
call); the (possibly replaced) record is appended, and the first
`toCreate` entry matching it is removed. -/
def applyLoop (toUpdate toDelete : List UnboundEndpoint) :
    List host → List host → List UnboundEndpoint →
    Except String (List host × List UnboundEndpoint)
  | [], finalHosts, toCreate => .ok (finalHosts, toCreate)
  | existingHost :: rest, finalHosts, toCreate =>
    if toDelete.any (changePredicate existingHost) then
      applyLoop toUpdate toDelete rest finalHosts toCreate
    else
      match toUpdate.find? (changePredicate existingHost) with
      | some upd =>
        match endpointToHost upd with
        | .error e => .error ("failed to convert endpoint to host; " ++ e)
        | .ok replaced =>
            applyLoop toUpdate toDelete rest (finalHosts ++ [replaced])
              (eraseFirstMatch (changePredicate replaced) toCreate)
      | none =>
          applyLoop toUpdate toDelete rest (finalHosts ++ [existingHost])
            (eraseFirstMatch (changePredicate existingHost) toCreate)

/-- Modelled from the spec and call sites: `integration.MapSliceErr`
(its source file is not part of the provided sources) maps a fallible
function over a slice in order, propagating the first error. -/
def MapSliceErr (f : UnboundEndpoint → Except String host) :
    List UnboundEndpoint → Except String (List host)
  | [] => .ok []
  | x :: xs =>
    match f x with
    | .error e => .error e
    | .ok y =>
      match MapSliceErr f xs with
      | .error e => .error e
      | .ok ys => .ok (y :: ys)

/-- The remote appliance as seen through the XML-RPC client: the reply
to `backup_config_section`, and the `Success` flags of
`restore_config_section` and `exec_php` (a transport-level error and a
`false` success flag both produce an error in the source and are folded
together here). -/
structure Remote where
  fetchResult : Except String unbound
  persistSuccess : Bool
  execPhpSuccess : String → Bool

/-- One remote procedure call made during `ApplyChanges`. -/
inductive RemoteCall where
  | fetch
  | persist (sec : unbound)
  | execPhp (code : String)
deriving DecidableEq

/-- Embeds `saveUnboundSection`: calls `restore_config_section` with the
whole section, then `exec_php` for the unbound and dhcpd reconfigure
triggers, sequentially, stopping at the first failure.  Returns the
result together with the list of calls made. -/
def saveUnboundSection (s : Remote) (sec : unbound) :
    Except String Unit × List RemoteCall :=
  if ¬ s.persistSuccess then
    (.error "pfsense returned false as a result of config restoring",
     [.persist sec])
  else
    let code1 := "$toreturn = services_unbound_configure(false);"
    if ¬ s.execPhpSuccess code1 then
      (.error "failed to exec php to configure unbound",
       [.persist sec, .execPhp code1])
    else
      let code2 := "$toreturn = services_dhcpd_configure();"
      if ¬ s.execPhpSuccess code2 then
        (.error "failed to exec php to configure dhcpd",
         [.persist sec, .execPhp code1, .execPhp code2])
      else
        (.ok (), [.persist sec, .execPhp code1, .execPhp code2])

/-- Embeds `ApplyChanges` (pkg/business/svc/pfsense.go): empty change
lists short-circuit to success with no remote call; otherwise the
section is fetched, the existing hosts are folded through `applyLoop`,
the surviving `toCreate` entries are converted and appended, the
section's `Hosts` field is replaced by the final list, and — unless in
dry-run mode, which stops after logging — the section is saved.
Returns the result together with the trace of remote calls. -/
def applyChanges (s : Remote) (dryRun : Bool)
    (toCreate toUpdate toDelete : List UnboundEndpoint) :
    Except String Unit × List RemoteCall :=
  if toCreate.length = 0 ∧ toUpdate.length = 0 ∧ toDelete.length = 0 then
    (.ok (), [])
  else
    match s.fetchResult with
    | .error e => (.error ("failed to fetch unbound section; " ++ e), [.fetch])
    | .ok sec =>
      match applyLoop toUpdate toDelete sec.Hosts [] toCreate with
      | .error e => (.error e, [.fetch])
      | .ok (finalHosts, toCreateLeft) =>
        match MapSliceErr endpointToHost toCreateLeft with
        | .error e =>
            (.error ("failed to map endpoints to hosts for creation; " ++ e),
             [.fetch])
        | .ok hostsToCreate =>
          let sec' := { sec with Hosts := finalHosts ++ hostsToCreate }
          if dryRun then
            (.ok (), [.fetch])
          else
            let save := saveUnboundSection s sec'
            (save.1, .fetch :: save.2)

/-- Embeds the generated `externaldnsapi.Endpoint` as consumed by the
controller: pointer fields become options. -/
structure APIEndpoint where
  dnsName : Option (List Char)
  targets : Option (List String)
  recordType : Option String
  labels : List (String × String)

/-- The value computed by the controller's `asUnboundEndpoint`: every
pointer field is dereferenced with a zero-value default
(`integration.FromPtr`, whose source file is not part of the provided
sources, is modelled from its call sites as pointer-or-default). -/
def apiToUnboundEndpoint (e : APIEndpoint) : UnboundEndpoint :=
  { DNSName := e.dnsName.getD [],
    Targets := e.targets.getD [],
    RecordType := e.recordType.getD "",
    Labels := e.labels }

/-- Embeds the controller's `asUnboundEndpoint`: it never fails, so it
wraps `apiToUnboundEndpoint` in `.ok` to mirror its
`(svc.UnboundEndpoint, error)` signature. -/
def asUnboundEndpoint (e : APIEndpoint) : Except String UnboundEndpoint :=
  .ok (apiToUnboundEndpoint e)

/-- `MapSliceErr` at the controller's element type (same modelling note
as `MapSliceErr`). -/
def mapSliceErrAPI (f : APIEndpoint → Except String UnboundEndpoint) :
    List APIEndpoint → Except String (List UnboundEndpoint)
  | [] => .ok []
  | x :: xs =>
    match f x with
    | .error e => .error e
    | .ok y =>
      match mapSliceErrAPI f xs with
      | .error e => .error e
      | .ok ys => .ok (y :: ys)

/-- Embeds the controller's `SetRecords`: each optional request list is
mapped through `asUnboundEndpoint` (a mapping error would be returned as
a validation rejection before any service call, though the mapping never
fails), then `ApplyChanges` is invoked and its error, if any, is
surfaced to the caller. -/
def setRecords (s : Remote) (dryRun : Bool)
    (create updateNew delete : Option (List APIEndpoint)) :
    Except String Unit × List RemoteCall :=
  match mapSliceErrAPI asUnboundEndpoint (create.getD []) with
  | .error e => (.error ("validation error; " ++ e), [])
  | .ok hostsToCreate =>
    match mapSliceErrAPI asUnboundEndpoint (updateNew.getD []) with
    | .error e => (.error ("validation error; " ++ e), [])
    | .ok hostsToUpdate =>
      match mapSliceErrAPI asUnboundEndpoint (delete.getD []) with
      | .error e => (.error ("validation error; " ++ e), [])
      | .ok hostsToDelete =>
        match applyChanges s dryRun hostsToCreate hostsToUpdate hostsToDelete with
        | (.error e, calls) =>
            (.error ("failed to apply unbound hosts changes; " ++ e), calls)
        | (.ok _, calls) => (.ok (), calls)

/-! ### Lemmas about the name splitter/joiner -/

lemma countDots_append (a b : List Char) :
    countDots (a ++ b) = countDots a + countDots b := by
  induction a with
  | nil => simp [countDots]
  | cons c rest ih => simp [countDots, ih]; omega

lemma countDots_eq_zero {s : List Char} : countDots s = 0 ↔ '.' ∉ s := by
  induction s with
  | nil => simp [countDots]
  | cons c rest ih =>
    by_cases hc : c = '.'
    · subst hc; simp [countDots]
    · simp [countDots, hc, ih, Ne.symm hc]

lemma breakAtDot_eq_none {s : List Char} : breakAtDot s = none ↔ '.' ∉ s := by
  induction s with
  | nil => simp [breakAtDot]
  | cons c rest ih =>
    by_cases hc : c = '.'
    · subst hc; simp [breakAtDot]
    · simp only [breakAtDot, if_neg hc]
      cases hb : breakAtDot rest with
      | none => simp [hb] at ih; simp [List.mem_cons, ih, hc, Ne.symm hc]
      | some p =>
        simp only [hb] at ih
        simp only [List.mem_cons]
        constructor
        · intro h; exact absurd h (by simp)
        · intro h
          exfalso
          apply h
          right
          by_contra hrest
          simp [hrest] at ih

lemma breakAtDot_append {h : List Char} (d : List Char) (hh : '.' ∉ h) :
    breakAtDot (h ++ '.' :: d) = some (h, d) := by
  induction h with
  | nil => simp [breakAtDot]
  | cons c rest ih =>
    have hc : c ≠ '.' := fun he => hh (he ▸ List.mem_cons_self c rest)
    have hrest : '.' ∉ rest := fun hm => hh (List.mem_cons_of_mem c hm)
    simp [breakAtDot, hc, ih hrest]

lemma breakAtDot_some {s a b : List Char} (h : breakAtDot s = some (a, b)) :
    s = a ++ '.' :: b ∧ '.' ∉ a := by
  induction s generalizing a b with
  | nil => simp [breakAtDot] at h
  | cons c rest ih =>
    by_cases hc : c = '.'
    · subst hc
      simp [breakAtDot] at h
      obtain ⟨ha, hb⟩ := h
      subst ha; subst hb
      simp
    · simp only [breakAtDot, if_neg hc] at h
      cases hb' : breakAtDot rest with
      | none => simp [hb'] at h
      | some p =>
        obtain ⟨a', b'⟩ := p
        simp [hb'] at h
        obtain ⟨ha, hbb⟩ := h
        obtain ⟨hs, hna⟩ := ih hb'
        subst ha; subst hbb; subst hs
        refine ⟨rfl, ?_⟩
        simp [List.mem_cons, hna, Ne.symm hc]

lemma countDots_pos_of_mem {s : List Char} (h : '.' ∈ s) : countDots s ≠ 0 :=
  fun hz => (countDots_eq_zero.mp hz) h

lemma buildDNSName_eq_ok (h d : List Char) (hh : '.' ∉ h) :
    buildDNSName h d = .ok (if h = [] then d else h ++ '.' :: d) := by
  have hz : countDots h = 0 := countDots_eq_zero.mpr hh
  by_cases he : h = []
  · simp [buildDNSName, he, countDots]
  · simp [buildDNSName, hz, he]

lemma explodeHostName_ok_dotfree {n h d : List Char}
    (hx : explodeHostName n = .ok (h, d)) : '.' ∉ h := by
  unfold explodeHostName at hx
  by_cases h1 : countDots n = 1
  · simp [h1] at hx
    obtain ⟨hh, _⟩ := hx
    subst hh; simp
  · simp only [if_neg h1, splitN2] at hx
    cases hb : breakAtDot n with
    | none => simp [hb] at hx
    | some p =>
      obtain ⟨a, b⟩ := p
      simp [hb] at hx
      obtain ⟨ha, _⟩ := hx
      subst ha
      exact (breakAtDot_some hb).2

/-! ### Concrete fixtures used by the closed theorems and witnesses -/

/-- A well-formed existing remote host entry with key (a, x.com). -/
def hostA : host :=
  { Host := str "a", Domain := str "x.com", Ip := "1.1.1.1",
    Descr := .empty, Aliases := "" }

/-- A concrete fetched `unbound` section whose host list is `[hostA]`
and whose sibling fields are all populated. -/
def sectionA : unbound :=
  { Enable := "on", Dnssec := "on", ActiveInterface := "all",
    OutgoingInterface := "all", CustomOptions := "server:",
    Hideidentity := "on", Hideversion := "on", Dnssecstripped := "on",
    Hosts := [hostA],
    Acls := [{ Aclid := "1", Aclname := "allow-lan", Aclaction := "allow",
               Description := "lan acl",
               Row := [{ AclNetwork := "192.168.1.0", Mask := "24",
                         Description := "lan row" }] }],
    Port := "53", Tlsport := "853", Sslcertref := "cert1",
    SystemDomainLocalZoneType := "transparent", Msgcachesize := "4",
    OutgoingNumTcp := "10", IncomingNumTcp := "10",
    EdnsBufferSize := "auto", NumQueriesPerThread := "512",
    JostleTimeout := "200", CacheMaxTtl := "86400", CacheMinTtl := "0",
    InfraKeepProbing := "on", InfraHostTtl := "900",
    InfraCacheNumhosts := "10000", UnwantedReplyThreshold := "disabled",
    LogVerbosity := "1", Forwarding := "on" }

/-- A remote appliance that answers the fetch with `sectionA` and
acknowledges every write. -/
def remoteA : Remote :=
  { fetchResult := .ok sectionA, persistSuccess := true,
    execPhpSuccess := fun _ => true }

/-- An endpoint whose dns name `a.x.com` is exactly `hostA`'s key. -/
def delEp : UnboundEndpoint :=
  { DNSName := str "a.x.com", Targets := ["1.1.1.1"], Labels := [],
    RecordType := "A" }

/-- A create endpoint carrying the same key as `hostA` but a new ip. -/
def createEp : UnboundEndpoint :=
  { DNSName := str "a.x.com", Targets := ["2.2.2.2"], Labels := [],
    RecordType := "A" }

/-- The host that `endpointToHost` produces from `createEp`. -/
def createdHostA : host :=
  { Host := str "a", Domain := str "x.com", Ip := "2.2.2.2",
    Descr := .endpointJson createEp, Aliases := "" }

/-- A syntactically valid host entry whose description starts with an
opening curly brace but is not valid JSON. -/
def badDescrHost : host :=
  { Host := str "a", Domain := str "x.com", Ip := "1.1.1.1",
    Descr := .invalidJson "\x7bnot-json", Aliases := "" }

/-- A decodable metadata payload with no targets and record type TXT. -/
def payloadNoTargets : UnboundEndpoint :=
  { DNSName := [], Targets := [], Labels := [], RecordType := "TXT" }

/-- A host entry whose description decodes to `payloadNoTargets`. -/
def c4Host : host :=
  { Host := str "a", Domain := str "x.com", Ip := "9.9.9.9",
    Descr := .endpointJson payloadNoTargets, Aliases := "" }

/-- An inbound endpoint that is malformed in two ways: unsupported
record type MX and a dns name with no dot. -/
def badAPIEp : APIEndpoint :=
  { dnsName := some (str "nodot"), targets := some [],
    recordType := some "MX", labels := [] }

/-! ### C3: toEndpoint totality on valid host records -/

/-- C3 counterexample: `badDescrHost` is a syntactically valid host
record (dot-free host label, non-empty domain) with a non-empty
description that is not valid JSON, yet `hostToEndpoint` fails on it
instead of reporting defaults — the claim that the conversion never
fails for such records is false. -/
theorem hostToEndpoint_fails_on_invalid_json :
    countDots badDescrHost.Host = 0 ∧ badDescrHost.Domain ≠ [] ∧
    hostToEndpoint badDescrHost =
      .error "failed to unmarshal description to endpoint" := by decide

/-- C3 amended: for every host record whose host part is dot-free,
`hostToEndpoint` succeeds provided the description is not an
opening-brace-prefixed string that fails to parse; when the description
is empty or is a non-parsed plain string, the result defaults to record
type A, targets equal to the record's ip, and no labels. -/
theorem hostToEndpoint_total_unless_invalidJson (h : host)
    (hh : '.' ∉ h.Host)
    (hdesc : ∀ s, h.Descr ≠ DescrVal.invalidJson s) :
    ∃ e, hostToEndpoint h = .ok e ∧
      ((h.Descr = .empty ∨ ∃ s, h.Descr = .plain s) →
        e.RecordType = "A" ∧ e.Targets = [h.Ip] ∧ e.Labels = []) := by
  unfold hostToEndpoint
  rw [buildDNSName_eq_ok h.Host h.Domain hh]
  cases hd : h.Descr with
  | empty => exact ⟨_, rfl, fun _ => ⟨rfl, rfl, rfl⟩⟩
  | plain s => exact ⟨_, rfl, fun _ => ⟨rfl, rfl, rfl⟩⟩
  | invalidJson s => exact absurd hd (hdesc s)
  | endpointJson p =>
      refine ⟨_, rfl, fun hcase => ?_⟩
      rcases hcase with hc | ⟨s, hc⟩ <;> exact DescrVal.noConfusion hc

/-- C3 witness: the amended theorem applied to `hostA` (empty
description). -/
theorem hostToEndpoint_total_witness :
    ∃ e, hostToEndpoint hostA = .ok e ∧
      ((hostA.Descr = .empty ∨ ∃ s, hostA.Descr = .plain s) →
        e.RecordType = "A" ∧ e.Targets = [hostA.Ip] ∧ e.Labels = []) :=
  hostToEndpoint_total_unless_invalidJson hostA (by decide)
    (fun s h => by simp [hostA] at h)

/-! ### C4: defaults applied to a decoded metadata payload -/

/-- C4 counterexample: `c4Host`'s description decodes successfully
(ok = true) with no targets in the payload, yet the resulting endpoint
has empty targets rather than the claimed default `[ip]` — the decoded
payload's targets are taken verbatim, they are not defaulted to the
host's ip. -/
theorem hostToEndpoint_no_target_default :
    hostToEndpoint c4Host =
      .ok { DNSName := str "a.x.com", Targets := [], Labels := [],
            RecordType := "TXT" } ∧
    c4Host.Ip = "9.9.9.9" ∧ ([] : List String) ≠ ["9.9.9.9"] := by decide

/-- C4 amended: when the description decodes as a structured payload
(ok = true), an empty or missing record type defaults to A, and the
targets and labels are taken verbatim from the payload — empty when the
payload has none; the ip-based default applies only when no payload is
decoded. -/
theorem hostToEndpoint_decoded_payload (h : host) (p : UnboundEndpoint)
    (hh : '.' ∉ h.Host) (hd : h.Descr = .endpointJson p) :
    ∃ e, hostToEndpoint h = .ok e ∧
      e.RecordType = (if p.RecordType = "" then "A" else p.RecordType) ∧
      e.Targets = p.Targets ∧ e.Labels = p.Labels := by
  unfold hostToEndpoint
  rw [buildDNSName_eq_ok h.Host h.Domain hh, hd]
  refine ⟨_, rfl, ?_, rfl, rfl⟩
  by_cases hrt : p.RecordType = ""
  · simp [hrt]
  · simp [hrt]

/-- C4 witness: the amended theorem applied to `c4Host`. -/
theorem hostToEndpoint_decoded_payload_witness :
    ∃ e, hostToEndpoint c4Host = .ok e ∧
      e.RecordType =
        (if payloadNoTargets.RecordType = "" then "A"
         else payloadNoTargets.RecordType) ∧
      e.Targets = payloadNoTargets.Targets ∧
      e.Labels = payloadNoTargets.Labels :=
  hostToEndpoint_decoded_payload c4Host payloadNoTargets (by decide) rfl

/-! ### C5: split and join as inverses -/

/-- C5 counterexample: `(host, domain) = (www, com)` is valid input for
the joiner (dot-free host, non-empty domain), `join` produces
`www.com`, but `split www.com` returns `(empty, www.com)`, not
`(www, com)` — the one-dot branch of `explodeHostName` wins, so the two
operations are not inverses on all valid inputs. -/
theorem split_join_not_inverse :
    countDots (str "www") = 0 ∧ str "com" ≠ [] ∧
    buildDNSName (str "www") (str "com") = .ok (str "www.com") ∧
    explodeHostName (str "www.com") = .ok ([], str "www.com") ∧
    (([], str "www.com") : List Char × List Char) ≠
      (str "www", str "com") := by decide

/-- C5 amended: `split (join h d) = (h, d)` holds for dot-free `h`
exactly when either `h` is non-empty and `d` contains a dot, or `h` is
empty and `d` contains exactly one dot; and `join (split n) = n` holds
whenever `n` has exactly one dot, or does not start with a dot. -/
theorem split_join_roundtrip :
    (∀ h d : List Char, '.' ∉ h →
      ((h ≠ [] ∧ '.' ∈ d) ∨ (h = [] ∧ countDots d = 1)) →
      ∃ n, buildDNSName h d = .ok n ∧ explodeHostName n = .ok (h, d)) ∧
    (∀ n h d : List Char, (countDots n = 1 ∨ n.head? ≠ some '.') →
      explodeHostName n = .ok (h, d) → buildDNSName h d = .ok n) := by
  constructor
  · intro h d hh hcase
    rcases hcase with ⟨hne, hd⟩ | ⟨he, hd1⟩
    · refine ⟨h ++ '.' :: d, ?_, ?_⟩
      · rw [buildDNSName_eq_ok h d hh, if_neg hne]
      · have hcnt : countDots (h ++ '.' :: d) ≠ 1 := by
          rw [countDots_append]
          have h0 : countDots h = 0 := countDots_eq_zero.mpr hh
          have hpos : countDots d ≠ 0 := countDots_pos_of_mem hd
          simp [countDots, h0]
          omega
        unfold explodeHostName
        rw [if_neg hcnt]
        simp [splitN2, breakAtDot_append d hh]
    · subst he
      refine ⟨d, ?_, ?_⟩
      · simp [buildDNSName, countDots]
      · simp [explodeHostName, hd1]
  · intro n h d hhead hx
    unfold explodeHostName at hx
    by_cases h1 : countDots n = 1
    · rw [if_pos h1] at hx
      simp at hx
      obtain ⟨hh, hd⟩ := hx
      subst hh; subst hd
      simp [buildDNSName, countDots]
    · rw [if_neg h1] at hx
      simp only [splitN2] at hx
      cases hb : breakAtDot n with
      | none => simp [hb] at hx
      | some p =>
        obtain ⟨a, b⟩ := p
        simp [hb] at hx
        obtain ⟨ha, hbb⟩ := hx
        obtain ⟨hs, hna⟩ := breakAtDot_some hb
        rw [← ha, ← hbb]
        rw [buildDNSName_eq_ok a b hna]
        by_cases he : a = []
        · exfalso
          rw [he] at hs
          simp at hs
          rcases hhead with hc1 | hc2
          · exact h1 hc1
          · exact hc2 (by rw [hs]; rfl)
        · rw [if_neg he, ← hs]

/-- C5 witness: both directions of the amended round-trip instantiated
at concrete names. -/
theorem split_join_roundtrip_witness :
    (∃ n, buildDNSName (str "www") (str "example.com") = .ok n ∧
      explodeHostName n = .ok (str "www", str "example.com")) ∧
    buildDNSName [] (str "example.com") = .ok (str "example.com") :=
  ⟨split_join_roundtrip.1 (str "www") (str "example.com") (by decide)
      (Or.inl ⟨by decide, by decide⟩),
   split_join_roundtrip.2 (str "example.com") [] (str "example.com")
      (Or.inl (by decide)) (by decide)⟩

/-! ### C6: names rejected by the splitter -/

/-- C6 counterexample: `explodeHostName` accepts `a.b.example.com`,
splitting it at the first dot into `(a, b.example.com)`, contrary to
the claim that names whose leading portion has more than one label are
rejected. -/
theorem explode_accepts_multi_label :
    explodeHostName (str "a.b.example.com") =
      .ok (str "a", str "b.example.com") := by decide

/-- C6 amended: `explodeHostName` fails exactly on names containing no
dot at all; every name with at least one dot is accepted (a name with
two or more dots is split at its first dot, so `a.b.example.com` yields
host `a` and domain `b.example.com`). -/
theorem explode_fails_iff_no_dot (n : List Char) :
    (∃ e, explodeHostName n = .error e) ↔ countDots n = 0 := by
  unfold explodeHostName
  by_cases h1 : countDots n = 1
  · simp [h1]
  · rw [if_neg h1]
    simp only [splitN2]
    cases hb : breakAtDot n with
    | none =>
      have hnm : '.' ∉ n := breakAtDot_eq_none.mp hb
      simp [countDots_eq_zero.mpr hnm]
    | some p =>
      obtain ⟨a, b⟩ := p
      have hm : '.' ∈ n := by
        rcases breakAtDot_some hb with ⟨hs, _⟩
        rw [hs]; simp
      simp [countDots_pos_of_mem hm]

/-- C6 witness: a dot-free name is rejected by the splitter. -/
theorem explode_fails_witness :
    ∃ e, explodeHostName (str "localhost") = .error e :=
  (explode_fails_iff_no_dot (str "localhost")).mpr (by decide)

/-! ### C7: endpoint round-trip through the host representation -/

/-- C7: for every endpoint with record type A or TXT, a dns name the
splitter accepts, and exactly one target when the type is A, converting
to a host record and back reproduces the record type, targets and
labels exactly. -/
theorem endpoint_roundtrip (e : UnboundEndpoint) (hst dom : List Char)
    (hty : e.RecordType = "A" ∨ e.RecordType = "TXT")
    (hsplit : explodeHostName e.DNSName = .ok (hst, dom))
    (htg : e.RecordType = "A" → e.Targets.length = 1) :
    ∃ h, endpointToHost e = .ok h ∧
      ∃ e2, hostToEndpoint h = .ok e2 ∧
        e2.RecordType = e.RecordType ∧ e2.Targets = e.Targets ∧
        e2.Labels = e.Labels := by
  have htc : ¬ (e.RecordType = "A" ∧ e.Targets.length ≠ 1) :=
    fun ⟨ha, hn⟩ => hn (htg ha)
  have hdf : '.' ∉ hst := explodeHostName_ok_dotfree hsplit
  have hne : e.RecordType ≠ "" := by
    rcases hty with h | h <;> rw [h] <;> decide
  unfold endpointToHost
  rw [if_neg (not_not_intro hty)]
  simp only [hsplit]
  rw [if_neg htc]
  refine ⟨_, rfl, ?_⟩
  unfold hostToEndpoint
  simp only [buildDNSName_eq_ok hst dom hdf]
  refine ⟨_, rfl, ?_, rfl, rfl⟩
  simp [hne]

/-- C7 witness: the round-trip theorem applied to a concrete A
endpoint with one label. -/
theorem endpoint_roundtrip_witness :
    ∃ h, endpointToHost delEp = .ok h ∧
      ∃ e2, hostToEndpoint h = .ok e2 ∧
        e2.RecordType = delEp.RecordType ∧ e2.Targets = delEp.Targets ∧
        e2.Labels = delEp.Labels :=
  endpoint_roundtrip delEp (str "a") (str "x.com") (Or.inl rfl)
    (by decide) (fun _ => rfl)

/-! ### Lemmas about the change applier -/

lemma changePredicate_false {x : host} (hx : '.' ∉ x.Host)
    (ep : UnboundEndpoint) : changePredicate x ep = false := by
  unfold changePredicate goDNS
  rw [buildDNSName_eq_ok x.Host x.Domain hx]
  rfl

lemma any_false_of {α : Type} (p : α → Bool) (hp : ∀ x, p x = false)
    (l : List α) : l.any p = false := by
  induction l with
  | nil => rfl
  | cons x xs ih => simp [hp x, ih]

lemma find?_none_of {α : Type} (p : α → Bool) (hp : ∀ x, p x = false)
    (l : List α) : l.find? p = none := by
  induction l with
  | nil => rfl
  | cons x xs ih => simp [List.find?, hp x, ih]

lemma eraseFirstMatch_id (p : UnboundEndpoint → Bool)
    (hp : ∀ x, p x = false) (l : List UnboundEndpoint) :
    eraseFirstMatch p l = l := by
  induction l with
  | nil => rfl
  | cons x xs ih => simp [eraseFirstMatch, hp x, ih]

/-- When every existing host has a dot-free host label, the loop of
`ApplyChanges` matches nothing (the buggy `err != nil` predicate is
false everywhere): it keeps every record and leaves `toCreate`
untouched. -/
lemma applyLoop_clean (u del : List UnboundEndpoint) :
    ∀ (hs acc : List host) (tc : List UnboundEndpoint),
    (∀ x ∈ hs, '.' ∉ x.Host) →
    applyLoop u del hs acc tc = .ok (acc ++ hs, tc)
  | [], acc, tc, _ => by simp [applyLoop]
  | x :: rest, acc, tc, hclean => by
    have hx : '.' ∉ x.Host := hclean x (List.mem_cons_self x rest)
    have hrest : ∀ y ∈ rest, '.' ∉ y.Host :=
      fun y hy => hclean y (List.mem_cons_of_mem x hy)
    unfold applyLoop
    rw [any_false_of _ (changePredicate_false hx) del,
        find?_none_of _ (changePredicate_false hx) u,
        eraseFirstMatch_id _ (changePredicate_false hx) tc]
    rw [applyLoop_clean u del rest (acc ++ [x]) tc hrest]
    simp

lemma MapSliceErr_error (f : UnboundEndpoint → Except String host) :
    ∀ (l : List UnboundEndpoint) (e : UnboundEndpoint), e ∈ l →
    (∃ m, f e = .error m) → ∃ m2, MapSliceErr f l = .error m2
  | [], e, he, _ => absurd he (List.not_mem_nil e)
  | x :: xs, e, he, hf => by
    unfold MapSliceErr
    cases hfx : f x with
    | error m => exact ⟨m, rfl⟩
    | ok y =>
      rcases List.mem_cons.mp he with rfl | hmem
      · obtain ⟨m, hm⟩ := hf
        rw [hfx] at hm
        exact Except.noConfusion hm
      · obtain ⟨m2, hm2⟩ := MapSliceErr_error f xs e hmem hf
        rw [hm2]
        exact ⟨m2, rfl⟩

lemma mapSliceErrAPI_ok : ∀ l : List APIEndpoint,
    mapSliceErrAPI asUnboundEndpoint l = .ok (l.map apiToUnboundEndpoint)
  | [] => rfl
  | x :: xs => by
    unfold mapSliceErrAPI
    rw [mapSliceErrAPI_ok xs]
    rfl

lemma save_persist_mem (s : Remote) (sec x : unbound)
    (h : RemoteCall.persist x ∈ (saveUnboundSection s sec).2) : x = sec := by
  unfold saveUnboundSection at h
  split at h
  · simp at h
    exact h
  · dsimp only at h
    split at h
    · simp at h
      exact h
    · split at h <;> simp at h <;> exact h

/-- Every trace of `applyChanges` is empty, a lone fetch, or a fetch
followed by the calls of `saveUnboundSection` on the fetched section
with only its `Hosts` field replaced. -/
lemma applyChanges_trace_cases (s : Remote) (d : Bool)
    (c u del : List UnboundEndpoint) :
    (applyChanges s d c u del).2 = [] ∨
    (applyChanges s d c u del).2 = [RemoteCall.fetch] ∨
    (∃ sec fh, s.fetchResult = Except.ok sec ∧
      (applyChanges s d c u del).2 =
        RemoteCall.fetch :: (saveUnboundSection s { sec with Hosts := fh }).2) := by
  unfold applyChanges
  split
  · exact Or.inl rfl
  · cases hf : s.fetchResult with
    | error e => exact Or.inr (Or.inl rfl)
    | ok sec =>
      dsimp only
      split
      · exact Or.inr (Or.inl rfl)
      · split
        · exact Or.inr (Or.inl rfl)
        · split
          · exact Or.inr (Or.inl rfl)
          · exact Or.inr (Or.inr ⟨sec, _, rfl, rfl⟩)

lemma applyChanges_dryRun_trace (s : Remote)
    (c u del : List UnboundEndpoint) :
    (applyChanges s true c u del).2 = [] ∨
    (applyChanges s true c u del).2 = [RemoteCall.fetch] := by
  unfold applyChanges
  split
  · exact Or.inl rfl
  · split
    · exact Or.inr rfl
    · split
      · exact Or.inr rfl
      · split
        · exact Or.inr rfl
        · exact Or.inr rfl

lemma applyChanges_fetch_first (s : Remote) (d : Bool)
    (c u del : List UnboundEndpoint)
    (hne : ¬(c.length = 0 ∧ u.length = 0 ∧ del.length = 0)) :
    ∃ rest, (applyChanges s d c u del).2 = RemoteCall.fetch :: rest := by
  unfold applyChanges
  rw [if_neg hne]
  split
  · exact ⟨[], rfl⟩
  · split
    · exact ⟨[], rfl⟩
    · split
      · exact ⟨[], rfl⟩
      · split
        · exact ⟨[], rfl⟩
        · exact ⟨_, rfl⟩

/-! ### C1: deletion of matched existing records -/

/-- C1 (evidence of the code bug): the existing record `hostA` has
exactly the identity key of the `toDelete` endpoint `delEp` (its built
dns name equals `delEp`'s dns name), yet `ApplyChanges` succeeds and
persists a section still containing `hostA`: the match predicate in the
source demands `err != nil` from `buildDNSName`, so a record with a
well-formed host label never matches any `toDelete` entry, contradicting
both the claim and the source's own comment. -/
theorem delete_request_ignored :
    (applyChanges remoteA false [] [] [delEp]).1 = .ok () ∧
    RemoteCall.persist sectionA ∈ (applyChanges remoteA false [] [] [delEp]).2 ∧
    hostA ∈ sectionA.Hosts ∧
    buildDNSName hostA.Host hostA.Domain = .ok delEp.DNSName := by decide

/-! ### C2: removal of already-present keys from toCreate -/

/-- C2 (evidence of the code bug): the `toCreate` endpoint `createEp`
has exactly the identity key of the existing record `hostA`, yet
`ApplyChanges` persists both the existing record and the newly created
one (a duplicate key): the same `err != nil` predicate prevents the
claimed removal of already-present keys from `toCreate`. -/
theorem create_not_deduplicated :
    (applyChanges remoteA false [createEp] [] []).1 = .ok () ∧
    RemoteCall.persist { sectionA with Hosts := [hostA, createdHostA] } ∈
      (applyChanges remoteA false [createEp] [] []).2 ∧
    buildDNSName hostA.Host hostA.Domain = .ok createEp.DNSName := by decide

/-! ### C8: no-op fast path and dry-run behaviour -/

/-- C8: with all three change lists empty, `ApplyChanges` returns
success with no remote call at all; in dry-run mode it never issues a
persist or reconfigure call for any input, and whenever the lists are
not all empty it does issue the fetch call. -/
theorem applyChanges_noop_and_dryRun (s : Remote) (d : Bool)
    (c u del : List UnboundEndpoint) :
    applyChanges s d [] [] [] = (.ok (), []) ∧
    (d = true →
      (∀ sec, RemoteCall.persist sec ∉ (applyChanges s d c u del).2) ∧
      (∀ code, RemoteCall.execPhp code ∉ (applyChanges s d c u del).2)) ∧
    (d = true → ¬(c = [] ∧ u = [] ∧ del = []) →
      RemoteCall.fetch ∈ (applyChanges s d c u del).2) := by
  refine ⟨rfl, ?_, ?_⟩
  · rintro rfl
    rcases applyChanges_dryRun_trace s c u del with h | h <;> rw [h] <;>
      exact ⟨fun sec => by simp, fun code => by simp⟩
  · rintro rfl hne
    have hne' : ¬(c.length = 0 ∧ u.length = 0 ∧ del.length = 0) := by
      simpa [List.length_eq_zero] using hne
    obtain ⟨rest, hr⟩ := applyChanges_fetch_first s true c u del hne'
    rw [hr]
    exact List.mem_cons_self _ _

/-- C8 witness: the no-op fast path and the dry-run guarantees at a
concrete remote and a non-empty create list. -/
theorem applyChanges_noop_and_dryRun_witness :
    applyChanges remoteA true [] [] [] = (.ok (), []) ∧
    (∀ sec, RemoteCall.persist sec ∉ (applyChanges remoteA true [createEp] [] []).2) ∧
    RemoteCall.fetch ∈ (applyChanges remoteA true [createEp] [] []).2 :=
  ⟨(applyChanges_noop_and_dryRun remoteA true [createEp] [] []).1,
   ((applyChanges_noop_and_dryRun remoteA true [createEp] [] []).2.1 rfl).1,
   (applyChanges_noop_and_dryRun remoteA true [createEp] [] []).2.2 rfl
     (by simp)⟩

/-! ### C9: rejection of malformed change requests -/

/-- C9 counterexample: a set-records request whose `delete` list holds
a malformed endpoint (unsupported record type MX and a dot-free name)
is not rejected: the operation succeeds, and the fetch and persist
remote calls are both made — `toDelete` entries are never converted,
so they are never validated. -/
theorem setRecords_malformed_delete_not_rejected :
    (setRecords remoteA false none none (some [badAPIEp])).1 = .ok () ∧
    RemoteCall.fetch ∈ (setRecords remoteA false none none (some [badAPIEp])).2 ∧
    RemoteCall.persist sectionA ∈
      (setRecords remoteA false none none (some [badAPIEp])).2 ∧
    endpointToHost (apiToUnboundEndpoint badAPIEp) =
      .error "only A and TXT record types are supported" := by decide

/-- C9 amended: a malformed or unsupported entry in the `create` list
makes the operation fail with an error surfaced to the inbound caller,
but only after the remote fetch read — the trace is exactly the fetch
call, so no persist or reconfigure write is attempted (assuming the
fetched records all carry well-formed host labels); malformed `delete`
entries, by contrast, are not validated at all. -/
theorem setRecords_bad_create_rejected_after_fetch
    (s : Remote) (d : Bool) (creates : List APIEndpoint)
    (u del : Option (List APIEndpoint)) (sec : unbound)
    (hf : s.fetchResult = .ok sec)
    (hclean : ∀ x ∈ sec.Hosts, '.' ∉ x.Host)
    (hbad : ∃ e ∈ creates, ∃ m,
      endpointToHost (apiToUnboundEndpoint e) = .error m) :
    (∃ m, (setRecords s d (some creates) u del).1 = .error m) ∧
    (setRecords s d (some creates) u del).2 = [RemoteCall.fetch] := by
  obtain ⟨e0, he0, hm0⟩ := hbad
  have hlen : ¬((creates.map apiToUnboundEndpoint).length = 0 ∧
      ((u.getD []).map apiToUnboundEndpoint).length = 0 ∧
      ((del.getD []).map apiToUnboundEndpoint).length = 0) := by
    rintro ⟨h1, -, -⟩
    rw [List.length_map, List.length_eq_zero] at h1
    rw [h1] at he0
    exact List.not_mem_nil e0 he0
  obtain ⟨m2, hm2⟩ := MapSliceErr_error endpointToHost
    (creates.map apiToUnboundEndpoint) (apiToUnboundEndpoint e0)
    (List.mem_map_of_mem apiToUnboundEndpoint he0) hm0
  have happ : applyChanges s d (creates.map apiToUnboundEndpoint)
      ((u.getD []).map apiToUnboundEndpoint)
      ((del.getD []).map apiToUnboundEndpoint) =
      (.error ("failed to map endpoints to hosts for creation; " ++ m2),
       [RemoteCall.fetch]) := by
    unfold applyChanges
    rw [if_neg hlen, hf]
    dsimp only
    rw [applyLoop_clean _ _ sec.Hosts [] _ hclean]
    dsimp only
    rw [hm2]
  unfold setRecords
  rw [Option.getD_some, mapSliceErrAPI_ok creates, mapSliceErrAPI_ok (u.getD []),
      mapSliceErrAPI_ok (del.getD [])]
  dsimp only
  rw [happ]
  exact ⟨⟨_, rfl⟩, rfl⟩

/-- C9 witness: the amended theorem at a concrete malformed create
entry (record type MX) against the concrete remote. -/
theorem setRecords_bad_create_witness :
    (∃ m, (setRecords remoteA false (some [badAPIEp]) none none).1 = .error m) ∧
    (setRecords remoteA false (some [badAPIEp]) none none).2 = [RemoteCall.fetch] :=
  setRecords_bad_create_rejected_after_fetch remoteA false [badAPIEp]
    none none sectionA rfl (by decide)
    ⟨badAPIEp, by simp, "only A and TXT record types are supported", by decide⟩

/-! ### C10: frame property of the write-back -/

/-- C10: every section handed to the persist call is the fetched
section with only its `Hosts` field replaced — all sibling fields
(enable, dnssec, interfaces, custom options, ACLs, and the rest) are
written back exactly as fetched. -/
theorem applyChanges_persist_frame (s : Remote) (d : Bool)
    (c u del : List UnboundEndpoint) (sec sec' : unbound)
    (hf : s.fetchResult = .ok sec)
    (hmem : RemoteCall.persist sec' ∈ (applyChanges s d c u del).2) :
    sec' = { sec with Hosts := sec'.Hosts } := by
  rcases applyChanges_trace_cases s d c u del with h | h | ⟨sec2, fh, hfr, htr⟩
  · rw [h] at hmem
    simp at hmem
  · rw [h] at hmem
    simp at hmem
  · rw [hf] at hfr
    injection hfr with hfr
    subst hfr
    rw [htr] at hmem
    rcases List.mem_cons.mp hmem with hc | hc
    · exact absurd hc (by simp)
    · have hx := save_persist_mem s _ _ hc
      rw [hx]

/-- C10 witness: the frame property at a concrete run that persists a
section with an extended host list. -/
theorem applyChanges_persist_frame_witness :
    ({ sectionA with Hosts := [hostA, createdHostA] } : unbound) =
      { sectionA with
          Hosts := ({ sectionA with Hosts := [hostA, createdHostA] } : unbound).Hosts } :=
  applyChanges_persist_frame remoteA false [createEp] [] [] sectionA
    { sectionA with Hosts := [hostA, createdHostA] } rfl (by decide)

end Pfsense
